import Mathlib

/-!
Shallow embedding of the client-side controller in `src/src/App.tsx`
(the multi-file variant of the YOLO augmentation front end).

The component state is the six `useState` cells declared at the top of
`App`: the ordered file collection, the numeric configuration value,
the loading flag, the error message, the download URL, and the active
drag index.  Each event handler of the source is embedded as a pure
function from state to state (plus, for submission, the optional
outbound multipart payload).  Machine integers of the source are
JavaScript numbers holding array indices and small counts; they are
embedded as `Nat`.  The opaque browser objects (`File`, object URLs)
are embedded as opaque records / numeric handle identifiers.
-/

namespace Yolo

/-- Opaque handle to an ingested raw file (the browser `File` object):
only its identity matters to the controller logic. -/
structure RawFile where
  name : String
  sizeBytes : Nat
deriving DecidableEq, Repr

/-- One element of the `files` state array:
`{file: File, className: string}`. -/
structure FileEntry where
  file : RawFile
  className : String
deriving DecidableEq, Repr

/-- Message set by `handleSubmit` when the collection is empty. -/
def emptySelectionMsg : String := "Please select at least one image file"

/-- Message set by `handleSubmit` when some class name trims to empty. -/
def missingClassNameMsg : String := "Please provide a class name for each image"

/-- Message set by the `catch` branch of `handleSubmit`. -/
def transportFailureMsg : String := "Error processing images. Please try again."

/-- The six `useState` cells of `App`.  `downloadUrl` holds the numeric
identifier of an object URL minted by `URL.createObjectURL` (embedded
as a counter value), `none` when the cell is `null`. -/
structure AppState where
  files : List FileEntry
  numImages : Nat
  isLoading : Bool
  error : Option String
  downloadUrl : Option Nat
  activeDragIndex : Option Nat
deriving DecidableEq, Repr

/-- Initial state of the six cells: `[]`, `10`, `false`, `null`, `null`,
`null`. -/
def initState : AppState :=
  { files := []
    numImages := 10
    isLoading := false
    error := none
    downloadUrl := none
    activeDragIndex := none }

/-- Embedding of the `onDrop` callback given to `useDropzone`: each
accepted file becomes `{file, className: ''}`, the new entries are
appended after the existing ones, and `error` and `downloadUrl` are
reset to `null`.  Note that the source drops the previous object-URL
reference without revoking it. -/
def dropzoneDrop (acceptedFiles : List RawFile) (s : AppState) : AppState :=
  { s with
    files := s.files ++ acceptedFiles.map (fun f => { file := f, className := "" })
    error := none
    downloadUrl := none }

/-- Embedding of `handleClassNameChange`: the source maps over `prev`
with the element index (`prev.map((item, i) => i === index ? {...item,
className: value} : item)`); the index-aware map is embedded as a map
over `List.enum`. -/
def handleClassNameChange (index : Nat) (value : String)
    (l : List FileEntry) : List FileEntry :=
  l.enum.map (fun p => if p.1 = index then { p.2 with className := value } else p.2)

/-- Embedding of `removeFile`: the source filters with the element index
(`prev.filter((_, i) => i !== index)`); the index-aware filter is
embedded as a filter over `List.enum`. -/
def removeFile (index : Nat) (l : List FileEntry) : List FileEntry :=
  (l.enum.filter (fun p => p.1 != index)).map Prod.snd

/-- Reorder applied by the `setFiles` updater inside `handleDrop`:
`splice(sourceIndex, 1)` removes the element at `sourceIndex` (a no-op
returning `undefined` when out of range), then `splice(targetIndex, 0,
removed)` inserts it at `targetIndex`, clamped to the length of the
shortened array as JavaScript `splice` clamps its start argument.  An
out-of-range `sourceIndex` cannot arise from the UI (the index is
written to the gesture payload from a rendered item), so the
`undefined`-insertion the source would perform there is embedded as the
identity; every theorem below restricts to in-range `sourceIndex`. -/
def spliceMove (sourceIndex targetIndex : Nat) (l : List FileEntry) :
    List FileEntry :=
  match l[sourceIndex]? with
  | some removed =>
      (l.eraseIdx sourceIndex).insertIdx
        (min targetIndex (l.eraseIdx sourceIndex).length) removed
  | none => l

/-- Embedding of `handleDrop` as a state transition: the handler reads
`sourceIndex` from the gesture payload and returns early when it equals
`targetIndex` — before the `setActiveDragIndex(null)` call — so on the
equal branch nothing at all changes; on the other branch the files are
splice-moved and the active drag index is cleared. -/
def handleDrop (sourceIndex targetIndex : Nat) (s : AppState) : AppState :=
  if sourceIndex = targetIndex then s
  else
    { s with
      files := spliceMove sourceIndex targetIndex s.files
      activeDragIndex := none }

/-- Embedding of `handleDragStart`: records the dragged index both in
the gesture payload and in `activeDragIndex`. -/
def handleDragStart (index : Nat) (s : AppState) : AppState :=
  { s with activeDragIndex := some index }

/-- Embedding of JavaScript `String.prototype.trim` as used in
`handleSubmit`'s `item.className.trim()`: remove leading and trailing
whitespace characters.  Stated over the character list of the string so
that concrete instances evaluate by kernel reduction. -/
def jsTrim (s : String) : String :=
  String.mk
    (((s.data.dropWhile Char.isWhitespace).reverse.dropWhile
        Char.isWhitespace).reverse)

/-- Value of one multipart form field: either a binary file or a
string. -/
inductive FormValue where
  | file (f : RawFile)
  | str (s : String)
deriving DecidableEq, Repr

/-- Multipart form body as the ordered list of appended
`(name, value)` fields. -/
abbrev FormBody := List (String × FormValue)

/-- Payload built inside `handleSubmit`: for each entry, in collection
order, one `files` field and one `class_names` field, then a single
`num_images` field holding `numImages.toString()` (decimal). -/
def buildFormData (files : List FileEntry) (numImages : Nat) : FormBody :=
  (files.flatMap (fun item =>
    [("files", FormValue.file item.file),
     ("class_names", FormValue.str item.className)]))
  ++ [("num_images", FormValue.str (toString numImages))]

/-- Embedding of the synchronous prefix of `handleSubmit`, up to the
point where the single `axios.post` is issued: the two validation
checks with their early returns (which leave every other cell,
including `downloadUrl`, untouched), then the state updates
`isLoading := true`, `error := null`, `downloadUrl := null` and the
payload of the outbound request.  The second component is the issued
request body, `none` when no network call is made. -/
def handleSubmit (s : AppState) : AppState × Option FormBody :=
  if s.files.length = 0 then
    ({ s with error := some emptySelectionMsg }, none)
  else if s.files.any (fun item => jsTrim item.className == "") then
    ({ s with error := some missingClassNameMsg }, none)
  else
    ({ s with isLoading := true, error := none, downloadUrl := none },
     some (buildFormData s.files s.numImages))

/-- Disabled attribute of the form's only submit button:
`isLoading || files.length === 0`. -/
def submitButtonDisabled (s : AppState) : Bool :=
  s.isLoading || s.files.length == 0

/-- A form-submit UI event.  The form's sole submit button carries
`disabled={isLoading || files.length === 0}`; while it is disabled the
browser performs neither click submission nor implicit (Enter-key)
submission, so `handleSubmit` can only run from a state where the
button is enabled. -/
def submitEvent (s : AppState) : AppState × Option FormBody :=
  if submitButtonDisabled s then (s, none) else handleSubmit s

/-- World state of one page session: the component state plus the
resources and requests that live outside React state.  `nextUrl` is the
identifier `URL.createObjectURL` would mint next, `liveUrls` the object
URLs created and never revoked (the source contains no
`URL.revokeObjectURL` call, so nothing is ever removed from it),
`requests` the number of outbound POSTs issued so far, `outstanding`
the number issued but not yet answered. -/
structure World where
  app : AppState
  nextUrl : Nat
  liveUrls : List Nat
  requests : Nat
  outstanding : Nat
deriving DecidableEq, Repr

/-- World at component mount. -/
def initWorld : World :=
  { app := initState, nextUrl := 0, liveUrls := [], requests := 0, outstanding := 0 }

/-- Success continuation of `handleSubmit` (the `try` tail plus
`finally`): `const url = URL.createObjectURL(new Blob([response.data]))`
mints a fresh object URL, `setDownloadUrl(url)` stores it, and
`setIsLoading(false)` runs in `finally`.  The previous object URL, if
any, is not revoked.  A response can only arrive while a request is
outstanding, which the admission discipline ties to `isLoading`. -/
def responseSuccess (w : World) : World :=
  if w.app.isLoading then
    { app := { w.app with downloadUrl := some w.nextUrl, isLoading := false }
      nextUrl := w.nextUrl + 1
      liveUrls := w.liveUrls ++ [w.nextUrl]
      requests := w.requests
      outstanding := w.outstanding - 1 }
  else w

/-- Failure continuation of `handleSubmit` (the `catch` branch plus
`finally`): a generic error message is stored and loading ends. -/
def responseFailure (w : World) : World :=
  if w.app.isLoading then
    { w with
      app := { w.app with error := some transportFailureMsg, isLoading := false }
      outstanding := w.outstanding - 1 }
  else w

/-- Discrete UI and network events that can reach the component's
handlers.  `dropOn` carries the source index read back from the gesture
payload; it is left unconstrained (the payload may be stale), which
only enlarges the set of modelled behaviours. -/
inductive Event where
  | ingest (fs : List RawFile)
  | editClassName (index : Nat) (value : String)
  | removeAt (index : Nat)
  | dragStart (index : Nat)
  | dropOn (sourceIndex targetIndex : Nat)
  | setNumImages (n : Nat)
  | formSubmit
  | respondSuccess
  | respondFailure
deriving DecidableEq, Repr

/-- One event step.  Guards come from the rendered UI: per-item events
require the item to be rendered (`index < files.length`); the class
input and the number input carry `disabled={isLoading}` while the
per-item remove button, the dropzone and the drag handlers do not; the
submit event is gated by the submit button's disabled attribute; a
response event fires only while a request is outstanding.  An event
whose guard fails leaves the world unchanged. -/
def applyEvent (w : World) (e : Event) : World :=
  match e with
  | .ingest fs => { w with app := dropzoneDrop fs w.app }
  | .editClassName i v =>
      if w.app.isLoading = false ∧ i < w.app.files.length then
        { w with app := { w.app with files := handleClassNameChange i v w.app.files } }
      else w
  | .removeAt i =>
      if i < w.app.files.length then
        { w with app := { w.app with files := removeFile i w.app.files } }
      else w
  | .dragStart i =>
      if i < w.app.files.length then
        { w with app := handleDragStart i w.app }
      else w
  | .dropOn src tgt =>
      if tgt < w.app.files.length then
        { w with app := handleDrop src tgt w.app }
      else w
  | .setNumImages n =>
      if w.app.isLoading = false then
        { w with app := { w.app with numImages := n } }
      else w
  | .formSubmit =>
      { w with
        app := (submitEvent w.app).1
        requests := w.requests + (if (submitEvent w.app).2.isSome then 1 else 0)
        outstanding := w.outstanding + (if (submitEvent w.app).2.isSome then 1 else 0) }
  | .respondSuccess => responseSuccess w
  | .respondFailure => responseFailure w

/-- World reached by a sequence of events from mount. -/
def run (es : List Event) : World := es.foldl applyEvent initWorld

/-- Reachability from mount. -/
def Reachable (w : World) : Prop := ∃ es : List Event, run es = w

/-- Core request-lifecycle invariant: while a request is in flight the
error and download cells are clear (the passing `handleSubmit` resets
both before posting), and the number of outstanding requests is `1`
exactly while `isLoading` holds and `0` otherwise. -/
def StateInv (w : World) : Prop :=
  (w.app.isLoading = true → w.app.error = none ∧ w.app.downloadUrl = none)
  ∧ w.outstanding = (if w.app.isLoading then 1 else 0)

theorem stateInv_initWorld : StateInv initWorld := by
  constructor
  · intro hl
    simp [initWorld, initState] at hl
  · simp [initWorld, initState]

theorem stateInv_applyEvent (w : World) (e : Event) (h : StateInv w) :
    StateInv (applyEvent w e) := by
  obtain ⟨h1, h2⟩ := h
  cases e with
  | ingest fs =>
      constructor
      · intro _
        simp [applyEvent, dropzoneDrop]
      · simpa [applyEvent, dropzoneDrop] using h2
  | editClassName i v =>
      simp only [applyEvent]
      split
      · exact ⟨h1, h2⟩
      · exact ⟨h1, h2⟩
  | removeAt i =>
      simp only [applyEvent]
      split
      · exact ⟨h1, h2⟩
      · exact ⟨h1, h2⟩
  | dragStart i =>
      simp only [applyEvent]
      split
      · exact ⟨h1, h2⟩
      · exact ⟨h1, h2⟩
  | dropOn src tgt =>
      simp only [applyEvent]
      split
      · simp only [handleDrop]
        split
        · exact ⟨h1, h2⟩
        · exact ⟨h1, h2⟩
      · exact ⟨h1, h2⟩
  | setNumImages n =>
      simp only [applyEvent]
      split
      · exact ⟨h1, h2⟩
      · exact ⟨h1, h2⟩
  | formSubmit =>
      by_cases hd : submitButtonDisabled w.app = true
      · simp only [applyEvent, submitEvent, hd, if_true]
        exact ⟨h1, by simpa using h2⟩
      · have hd' : submitButtonDisabled w.app = false := by
          revert hd
          cases submitButtonDisabled w.app <;> simp
        have hload : w.app.isLoading = false := by
          have := hd'
          simp only [submitButtonDisabled, Bool.or_eq_false_iff] at this
          exact this.1
        have hlen : ¬ w.app.files.length = 0 := by
          have := hd'
          simp only [submitButtonDisabled, Bool.or_eq_false_iff] at this
          simpa using this.2
        simp only [applyEvent, submitEvent, hd', Bool.false_eq_true, if_false,
          handleSubmit, hlen]
        split
        · constructor
          · intro hl
            simp [hload] at hl
          · simpa [hload] using h2
        · constructor
          · intro _
            exact ⟨rfl, rfl⟩
          · simp [hload] at h2
            simp [h2]
  | respondSuccess =>
      simp only [applyEvent, responseSuccess]
      split
      · next hl =>
          constructor
          · intro hl'
            simp at hl'
          · simp [hl] at h2
            simp [h2]
      · exact ⟨h1, h2⟩
  | respondFailure =>
      simp only [applyEvent, responseFailure]
      split
      · next hl =>
          constructor
          · intro hl'
            simp at hl'
          · simp [hl] at h2
            simp [h2]
      · exact ⟨h1, h2⟩

theorem stateInv_foldl (es : List Event) :
    ∀ w : World, StateInv w → StateInv (es.foldl applyEvent w) := by
  induction es with
  | nil => exact fun w h => h
  | cons e es ih => exact fun w h => ih _ (stateInv_applyEvent w e h)

theorem reachable_stateInv (w : World) (hr : Reachable w) : StateInv w := by
  obtain ⟨es, rfl⟩ := hr
  exact stateInv_foldl es initWorld stateInv_initWorld

theorem removeFile_eq_eraseIdx_aux (index : Nat) :
    ∀ (l : List FileEntry) (n : Nat),
      ((l.enumFrom n).filter (fun p => p.1 != index)).map Prod.snd
        = if index < n then l else l.eraseIdx (index - n) := by
  intro l
  induction l with
  | nil =>
      intro n
      simp
  | cons a l ih =>
      intro n
      rcases Nat.lt_trichotomy index n with hlt | heq | hgt
      · have hb : (n != index) = true := bne_iff_ne.mpr (Nat.ne_of_gt hlt)
        simp [hb, ih (n + 1), Nat.lt_succ_of_lt hlt, hlt]
      · have hb : (n != index) = false := by simp [heq]
        have h1 : ¬ index < n := by omega
        have h2 : index - n = 0 := by omega
        have h3 : index < n + 1 := by omega
        simp [hb, ih (n + 1), h1, h2, h3]
      · have hb : (n != index) = true := bne_iff_ne.mpr (Nat.ne_of_lt hgt)
        have h1 : ¬ index < n := by omega
        have h2 : ¬ index < n + 1 := by omega
        have h3 : index - n = (index - (n + 1)) + 1 := by omega
        simp [hb, ih (n + 1), h1, h2, h3]

theorem removeFile_eq_eraseIdx (index : Nat) (l : List FileEntry) :
    removeFile index l = l.eraseIdx index := by
  have h := removeFile_eq_eraseIdx_aux index l 0
  simpa [removeFile, List.enum] using h

theorem handleClassNameChange_getElem? (index : Nat) (v : String)
    (l : List FileEntry) (j : Nat) :
    (handleClassNameChange index v l)[j]?
      = (l[j]?).map
          (fun e => if j = index then { e with className := v } else e) := by
  cases h : l[j]? <;>
    simp [handleClassNameChange, List.getElem?_map, List.getElem?_enum, h]

/-- Concrete fixture file. -/
def rawA : RawFile := { name := "a.jpg", sizeBytes := 1 }

/-- Concrete fixture file. -/
def rawB : RawFile := { name := "b.jpg", sizeBytes := 2 }

/-- Concrete fixture file. -/
def rawC : RawFile := { name := "c.jpg", sizeBytes := 3 }

/-- Concrete fixture file. -/
def rawD : RawFile := { name := "d.jpg", sizeBytes := 4 }

/-- Concrete fixture entry. -/
def entryA : FileEntry := { file := rawA, className := "A" }

/-- Concrete fixture entry. -/
def entryB : FileEntry := { file := rawB, className := "B" }

/-- Concrete fixture entry. -/
def entryC : FileEntry := { file := rawC, className := "C" }

/-- Concrete fixture entry. -/
def entryD : FileEntry := { file := rawD, className := "D" }

/-- Event sequence that ingests one file, labels it, and submits,
leaving a request in flight. -/
def inflightTrace : List Event :=
  [Event.ingest [rawA], Event.editClassName 0 "cat", Event.formSubmit]

/-- C1: in every reachable world with a request in flight, a further
submit event is a no-op — the component state is returned unchanged and
no payload is posted, so the whole world is unchanged — and at most one
request is outstanding at any time. -/
theorem submit_while_inflight_is_noop (w : World) (hr : Reachable w) :
    (w.app.isLoading = true →
      submitEvent w.app = (w.app, none) ∧ applyEvent w Event.formSubmit = w)
    ∧ w.outstanding ≤ 1 := by
  have hinv := reachable_stateInv w hr
  constructor
  · intro hl
    have hdis : submitButtonDisabled w.app = true := by
      simp [submitButtonDisabled, hl]
    have hsub : submitEvent w.app = (w.app, none) := by
      simp [submitEvent, hdis]
    refine ⟨hsub, ?_⟩
    simp [applyEvent, hsub]
  · rw [hinv.2]
    split <;> simp

/-- Witness for C1 at the in-flight world reached by `inflightTrace`. -/
theorem submit_while_inflight_is_noop_witness :
    submitEvent (run inflightTrace).app = ((run inflightTrace).app, none)
    ∧ (run inflightTrace).outstanding ≤ 1 :=
  ⟨((submit_while_inflight_is_noop (run inflightTrace)
      ⟨inflightTrace, rfl⟩).1 (by decide)).1,
   (submit_while_inflight_is_noop (run inflightTrace) ⟨inflightTrace, rfl⟩).2⟩

/-- C2: for every collection and every pair of distinct valid indices,
the drop reorder is the splice-move — remove the entry at sourceIndex,
then insert it at position targetIndex of the already-shortened
sequence — so the length is preserved, the moved entry lands at
targetIndex, removing it there undoes the move, and the two scenario
instances move(0,2) and move(3,0) on [A,B,C,D] compute as stated. -/
theorem drop_is_splice_move (l : List FileEntry) (s t : Nat)
    (hs : s < l.length) (ht : t < l.length) (hne : s ≠ t) :
    spliceMove s t l = (l.eraseIdx s).insertIdx t l[s]
    ∧ (spliceMove s t l).length = l.length
    ∧ (spliceMove s t l)[t]? = l[s]?
    ∧ (spliceMove s t l).eraseIdx t = l.eraseIdx s
    ∧ spliceMove 0 2 [entryA, entryB, entryC, entryD]
        = [entryB, entryC, entryA, entryD]
    ∧ spliceMove 3 0 [entryA, entryB, entryC, entryD]
        = [entryD, entryA, entryB, entryC] := by
  have hlen' : (l.eraseIdx s).length = l.length - 1 :=
    List.length_eraseIdx_of_lt hs
  have ht' : t ≤ (l.eraseIdx s).length := by omega
  have hmin : min t (l.eraseIdx s).length = t := Nat.min_eq_left ht'
  have hget : l[s]? = some l[s] := List.getElem?_eq_getElem hs
  have h1 : spliceMove s t l = (l.eraseIdx s).insertIdx t l[s] := by
    simp [spliceMove, hget, hmin]
  refine ⟨h1, ?_, ?_, ?_, by decide, by decide⟩
  · rw [h1, List.length_insertIdx t _ ht']
    omega
  · have hlt : t < ((l.eraseIdx s).insertIdx t l[s]).length := by
      rw [List.length_insertIdx t _ ht']
      omega
    rw [h1, List.getElem?_eq_getElem hlt,
      List.getElem_insertIdx_self _ _ _ ht', hget]
  · rw [h1, List.eraseIdx_insertIdx]

/-- Witness for C2 at move(0,2) on the four fixture entries. -/
theorem drop_is_splice_move_witness :
    (spliceMove 0 2 [entryA, entryB, entryC, entryD]).length = 4 := by
  have h := drop_is_splice_move [entryA, entryB, entryC, entryD] 0 2
    (by decide) (by decide) (by decide)
  simpa using h.2.1

/-- C3: submission validates before any network call: it fails with
the empty-selection message exactly when the collection is empty,
otherwise fails with the missing-class-name message exactly when some
entry's class name trims to empty, otherwise clears the error and
issues the request; on either failure the second component is `none` —
zero network calls — and the rest of the state (the download handle
included) is untouched. -/
theorem submit_validates_before_network (s : AppState) :
    (s.files = [] →
      handleSubmit s = ({ s with error := some emptySelectionMsg }, none))
    ∧ (s.files ≠ [] → (∃ e ∈ s.files, jsTrim e.className = "") →
      handleSubmit s = ({ s with error := some missingClassNameMsg }, none))
    ∧ (s.files ≠ [] → (∀ e ∈ s.files, jsTrim e.className ≠ "") →
      (handleSubmit s).1.error = none ∧ (handleSubmit s).2 ≠ none) := by
  refine ⟨?_, ?_, ?_⟩
  · intro h
    simp [handleSubmit, h]
  · intro hne hex
    have hlen : ¬ s.files.length = 0 := by
      simpa [List.length_eq_zero] using hne
    have hany : s.files.any (fun item => jsTrim item.className == "") = true := by
      rw [List.any_eq_true]
      obtain ⟨e, he, htr⟩ := hex
      exact ⟨e, he, by simp [htr]⟩
    simp [handleSubmit, hlen, hany]
  · intro hne hall
    have hlen : ¬ s.files.length = 0 := by
      simpa [List.length_eq_zero] using hne
    have hany : s.files.any (fun item => jsTrim item.className == "") = false := by
      rw [List.any_eq_false]
      intro e he
      simpa using hall e he
    simp [handleSubmit, hlen, hany]

/-- Witness for C3 at the empty initial collection. -/
theorem submit_validates_before_network_witness :
    handleSubmit initState = ({ initState with error := some emptySelectionMsg }, none) :=
  (submit_validates_before_network initState).1 rfl

theorem str_num_ne_files : ¬ ("num_images" : String) = "files" := by decide

theorem str_cn_ne_files : ¬ ("class_names" : String) = "files" := by decide

theorem str_num_ne_cn : ¬ ("num_images" : String) = "class_names" := by decide

theorem str_files_ne_cn : ¬ ("files" : String) = "class_names" := by decide

theorem str_files_ne_num : ¬ ("files" : String) = "num_images" := by decide

theorem str_cn_ne_num : ¬ ("class_names" : String) = "num_images" := by decide

theorem buildFormData_cons (e : FileEntry) (fs : List FileEntry) (n : Nat) :
    buildFormData (e :: fs) n
      = ("files", FormValue.file e.file)
        :: ("class_names", FormValue.str e.className) :: buildFormData fs n := by
  simp [buildFormData]

theorem buildFormData_filterMap_files (fs : List FileEntry) (n : Nat) :
    (buildFormData fs n).filterMap
        (fun p => if p.1 = "files" then some p.2 else none)
      = fs.map (fun e => FormValue.file e.file) := by
  induction fs with
  | nil =>
      show List.filterMap _ [("num_images", FormValue.str (toString n))] = []
      rw [List.filterMap_cons, if_neg str_num_ne_files]
      rfl
  | cons e fs ih =>
      rw [buildFormData_cons, List.filterMap_cons, List.filterMap_cons,
        if_pos rfl, if_neg str_cn_ne_files]
      simp [ih]

theorem buildFormData_filterMap_classnames (fs : List FileEntry) (n : Nat) :
    (buildFormData fs n).filterMap
        (fun p => if p.1 = "class_names" then some p.2 else none)
      = fs.map (fun e => FormValue.str e.className) := by
  induction fs with
  | nil =>
      show List.filterMap _ [("num_images", FormValue.str (toString n))] = []
      rw [List.filterMap_cons, if_neg str_num_ne_cn]
      rfl
  | cons e fs ih =>
      rw [buildFormData_cons, List.filterMap_cons, List.filterMap_cons,
        if_neg str_files_ne_cn, if_pos rfl]
      simp [ih]

theorem buildFormData_filterMap_numimages (fs : List FileEntry) (n : Nat) :
    (buildFormData fs n).filterMap
        (fun p => if p.1 = "num_images" then some p.2 else none)
      = [FormValue.str (toString n)] := by
  induction fs with
  | nil =>
      show List.filterMap _ [("num_images", FormValue.str (toString n))] = _
      rw [List.filterMap_cons, if_pos rfl]
      rfl
  | cons e fs ih =>
      rw [buildFormData_cons, List.filterMap_cons, List.filterMap_cons,
        if_neg str_files_ne_num, if_neg str_cn_ne_num]
      exact ih

/-- C4: for every state that passes validation, the submit issues the
payload built from the collection: it carries exactly length-many
`files` fields and exactly length-many `class_names` fields, each read
off the collection in order so that the i-th of each pair comes from
the same entry, plus a single `num_images` field holding the decimal
string of the configured integer. -/
theorem payload_pairs_files_and_classnames (s : AppState)
    (hne : s.files ≠ []) (hval : ∀ e ∈ s.files, jsTrim e.className ≠ "") :
    (handleSubmit s).2 = some (buildFormData s.files s.numImages)
    ∧ (buildFormData s.files s.numImages).filterMap
        (fun p => if p.1 = "files" then some p.2 else none)
        = s.files.map (fun e => FormValue.file e.file)
    ∧ (buildFormData s.files s.numImages).filterMap
        (fun p => if p.1 = "class_names" then some p.2 else none)
        = s.files.map (fun e => FormValue.str e.className)
    ∧ ((buildFormData s.files s.numImages).filterMap
        (fun p => if p.1 = "files" then some p.2 else none)).length
        = s.files.length
    ∧ ((buildFormData s.files s.numImages).filterMap
        (fun p => if p.1 = "class_names" then some p.2 else none)).length
        = s.files.length
    ∧ (buildFormData s.files s.numImages).filterMap
        (fun p => if p.1 = "num_images" then some p.2 else none)
        = [FormValue.str (toString s.numImages)] := by
  have hlen : ¬ s.files.length = 0 := by
    simpa [List.length_eq_zero] using hne
  have hany : s.files.any (fun item => jsTrim item.className == "") = false := by
    rw [List.any_eq_false]
    intro e he
    simpa using hval e he
  refine ⟨by simp [handleSubmit, hlen, hany], buildFormData_filterMap_files _ _,
    buildFormData_filterMap_classnames _ _, ?_, ?_,
    buildFormData_filterMap_numimages _ _⟩
  · rw [buildFormData_filterMap_files, List.length_map]
  · rw [buildFormData_filterMap_classnames, List.length_map]

/-- Concrete state of spec Scenario A: three labelled entries and
`numImages = 5`. -/
def scenarioAState : AppState :=
  { files := [{ file := rawA, className := "cat" },
              { file := rawB, className := "dog" },
              { file := rawC, className := "bird" }]
    numImages := 5
    isLoading := false
    error := none
    downloadUrl := none
    activeDragIndex := none }

/-- Witness for C4 at Scenario A. -/
theorem payload_pairs_files_and_classnames_witness :
    (handleSubmit scenarioAState).2
      = some (buildFormData scenarioAState.files scenarioAState.numImages)
    ∧ (buildFormData scenarioAState.files scenarioAState.numImages).filterMap
        (fun p => if p.1 = "class_names" then some p.2 else none)
      = [FormValue.str "cat", FormValue.str "dog", FormValue.str "bird"] := by
  have h := payload_pairs_files_and_classnames scenarioAState
    (by decide) (by decide)
  exact ⟨h.1, by simpa [scenarioAState] using h.2.2.1⟩

/-- Event sequence that reaches a state where the validation error and
a previously produced success handle are both present: submit
successfully, blank the class name, submit again. -/
def coexistTrace : List Event :=
  [Event.ingest [rawA], Event.editClassName 0 "cat", Event.formSubmit,
   Event.respondSuccess, Event.editClassName 0 "", Event.formSubmit]

/-- Counterexample to C5: the validation early-returns of
`handleSubmit` set the error without clearing `downloadUrl`, so after a
success followed by a failing submit the Failed message and the
Succeeded handle are live simultaneously in a reachable state. -/
theorem error_and_success_handle_coexist :
    Reachable (run coexistTrace)
    ∧ (run coexistTrace).app.error = some missingClassNameMsg
    ∧ (run coexistTrace).app.downloadUrl = some 0 :=
  ⟨⟨coexistTrace, rfl⟩, by decide, by decide⟩

/-- C5 amended: exclusivity holds while a request is in flight — in
every reachable world with `isLoading` set, the error message and the
archive handle are both absent, since the passing submit clears both
before posting — but after a validation failure a prior success handle
does remain live alongside the error message. -/
theorem inflight_excludes_error_and_handle (w : World) (hr : Reachable w)
    (hl : w.app.isLoading = true) :
    w.app.error = none ∧ w.app.downloadUrl = none :=
  (reachable_stateInv w hr).1 hl

/-- Witness for the amended C5 at the in-flight world reached by
`inflightTrace`. -/
theorem inflight_excludes_error_and_handle_witness :
    (run inflightTrace).app.error = none
    ∧ (run inflightTrace).app.downloadUrl = none :=
  inflight_excludes_error_and_handle (run inflightTrace)
    ⟨inflightTrace, rfl⟩ (by decide)

/-- Error taxonomy of the spec's collection operations. -/
inductive CollectionError where
  | IndexOutOfRange
deriving DecidableEq, Repr

/-- Modelled from the spec (for comparison with `removeFile`): remove
fails with IndexOutOfRange when the index is not in `[0, length)`,
otherwise deletes the entry. -/
def specRemove (index : Nat) (l : List FileEntry) :
    Except CollectionError (List FileEntry) :=
  if index < l.length then Except.ok (l.eraseIdx index)
  else Except.error CollectionError.IndexOutOfRange

/-- Modelled from the spec (for comparison with
`handleClassNameChange`): setClassName fails with IndexOutOfRange when
the index is invalid, otherwise overwrites the label verbatim. -/
def specSetClassName (index : Nat) (value : String) (l : List FileEntry) :
    Except CollectionError (List FileEntry) :=
  if index < l.length then Except.ok (handleClassNameChange index value l)
  else Except.error CollectionError.IndexOutOfRange

/-- Counterexample to C6: at index 5 of a one-entry collection the
claim demands an IndexOutOfRange failure from both operations, but the
source's `removeFile` and `handleClassNameChange` signal nothing and
return the collection unchanged. -/
theorem out_of_range_ops_do_not_fail :
    specRemove 5 [entryA] = Except.error CollectionError.IndexOutOfRange
    ∧ removeFile 5 [entryA] = [entryA]
    ∧ specSetClassName 5 "x" [entryA]
        = Except.error CollectionError.IndexOutOfRange
    ∧ handleClassNameChange 5 "x" [entryA] = [entryA] :=
  ⟨rfl, by decide, rfl, by decide⟩

/-- C6 amended: for every index outside `[0, length)` both operations
return the collection unchanged — no failure is signalled; for valid
indices remove deletes the entry, shifting all later entries one
position earlier, and setClassName overwrites the targeted `className`
verbatim while leaving every other position unchanged. -/
theorem remove_and_set_class_name_semantics (l : List FileEntry) (i : Nat)
    (v : String) :
    (l.length ≤ i → removeFile i l = l ∧ handleClassNameChange i v l = l)
    ∧ (i < l.length → removeFile i l = l.eraseIdx i
        ∧ (handleClassNameChange i v l)[i]?
            = (l[i]?).map (fun e => { e with className := v })
        ∧ ∀ j : Nat, j ≠ i → (handleClassNameChange i v l)[j]? = l[j]?) := by
  have hset : ∀ j : Nat, j ≠ i → (handleClassNameChange i v l)[j]? = l[j]? := by
    intro j hj
    rw [handleClassNameChange_getElem?]
    cases l[j]? <;> simp [hj]
  constructor
  · intro h
    refine ⟨?_, ?_⟩
    · rw [removeFile_eq_eraseIdx, List.eraseIdx_eq_self.mpr h]
    · apply List.ext_getElem?
      intro j
      rcases Nat.lt_or_ge j l.length with hjl | hjl
      · exact hset j (by omega)
      · rw [handleClassNameChange_getElem?, List.getElem?_eq_none hjl]
        rfl
  · intro h
    refine ⟨removeFile_eq_eraseIdx i l, ?_, hset⟩
    rw [handleClassNameChange_getElem?]
    cases l[i]? <;> simp

/-- Witness for the amended C6 at index 0 of a two-entry collection. -/
theorem remove_and_set_class_name_semantics_witness :
    removeFile 0 [entryA, entryB] = [entryB]
    ∧ (handleClassNameChange 0 "z" [entryA, entryB])[0]?
        = some { entryA with className := "z" } := by
  have h := (remove_and_set_class_name_semantics [entryA, entryB] 0 "z").2
    (by decide)
  exact ⟨by simpa using h.1, by simpa using h.2.1⟩

/-- Concrete state mid-drag: three entries, item 1 highlighted. -/
def dragState : AppState :=
  { files := [entryA, entryB, entryC]
    numImages := 10
    isLoading := false
    error := none
    downloadUrl := none
    activeDragIndex := some 1 }

/-- Counterexample to C7: on the equal-index branch `handleDrop`
returns before `setActiveDragIndex(null)`, so dropping item 1 on itself
keeps the active index at `some 1` where the claim requires it
cleared. -/
theorem equal_drop_keeps_active_index :
    handleDrop 1 1 dragState = dragState
    ∧ (handleDrop 1 1 dragState).activeDragIndex = some 1 := by decide

/-- C7 amended: a drop with equal indices leaves the entire state —
collection and active highlight index included — unchanged; the active
index is cleared only on the moving branch, where the collection is
splice-moved. -/
theorem drop_equal_noop_move_clears (s : AppState) (src tgt : Nat) :
    (src = tgt → handleDrop src tgt s = s)
    ∧ (src ≠ tgt →
        handleDrop src tgt s
          = { s with
              files := spliceMove src tgt s.files
              activeDragIndex := none }) := by
  constructor
  · intro h
    simp [handleDrop, h]
  · intro h
    simp [handleDrop, h]

/-- Witness for the amended C7 on the mid-drag fixture state. -/
theorem drop_equal_noop_move_clears_witness :
    handleDrop 2 2 dragState = dragState
    ∧ handleDrop 0 2 dragState
      = { dragState with
          files := spliceMove 0 2 dragState.files
          activeDragIndex := none } :=
  ⟨(drop_equal_noop_move_clears dragState 2 2).1 rfl,
   (drop_equal_noop_move_clears dragState 0 2).2 (by decide)⟩

/-- C8: ingestion constructs one entry per accepted file with the class
name initialised to the empty string, appends them after the existing
entries preserving their order, clears any previous error and any
previous result handle, and touches nothing else. -/
theorem ingest_appends_and_clears (s : AppState) (fs : List RawFile) :
    (dropzoneDrop fs s).files
        = s.files ++ fs.map (fun f => { file := f, className := "" })
    ∧ (dropzoneDrop fs s).error = none
    ∧ (dropzoneDrop fs s).downloadUrl = none
    ∧ (dropzoneDrop fs s).numImages = s.numImages
    ∧ (dropzoneDrop fs s).isLoading = s.isLoading
    ∧ (dropzoneDrop fs s).activeDragIndex = s.activeDragIndex :=
  ⟨rfl, rfl, rfl, rfl, rfl, rfl⟩

/-- Event sequence with two successful submissions of the same
labelled entry. -/
def doubleSuccessTrace : List Event :=
  [Event.ingest [rawA], Event.editClassName 0 "cat", Event.formSubmit,
   Event.respondSuccess, Event.formSubmit, Event.respondSuccess]

/-- C9 at its failing input: the source never calls
`URL.revokeObjectURL`, so nothing is released before the stored handle
is replaced — after a second successful submission both object URLs are
still live while `downloadUrl` references only the second. -/
theorem second_success_leaks_first_handle :
    Reachable (run doubleSuccessTrace)
    ∧ (run doubleSuccessTrace).liveUrls = [0, 1]
    ∧ (run doubleSuccessTrace).app.downloadUrl = some 1 :=
  ⟨⟨doubleSuccessTrace, rfl⟩, by decide, by decide⟩

/-- C10: remove, class-name editing and drag-move leave the request
state untouched — the error message, the download handle and the set of
live URLs are unchanged by all three — so a handle obtained from a
prior success stays live and visible across edits and reorders, unlike
after an append. -/
theorem collection_edits_preserve_request_state (w : World)
    (i src tgt : Nat) (v : String) :
    ((applyEvent w (Event.removeAt i)).app.error = w.app.error
      ∧ (applyEvent w (Event.removeAt i)).app.downloadUrl = w.app.downloadUrl
      ∧ (applyEvent w (Event.removeAt i)).liveUrls = w.liveUrls)
    ∧ ((applyEvent w (Event.editClassName i v)).app.error = w.app.error
      ∧ (applyEvent w (Event.editClassName i v)).app.downloadUrl
          = w.app.downloadUrl
      ∧ (applyEvent w (Event.editClassName i v)).liveUrls = w.liveUrls)
    ∧ ((applyEvent w (Event.dropOn src tgt)).app.error = w.app.error
      ∧ (applyEvent w (Event.dropOn src tgt)).app.downloadUrl
          = w.app.downloadUrl
      ∧ (applyEvent w (Event.dropOn src tgt)).liveUrls = w.liveUrls) := by
  refine ⟨⟨?_, ?_, ?_⟩, ⟨?_, ?_, ?_⟩, ⟨?_, ?_, ?_⟩⟩ <;>
    · simp only [applyEvent]
      split <;> first
        | rfl
        | (simp only [handleDrop]; split <;> rfl)

end Yolo
